import Mathlib

/-!
Verification of the entity-resolution and aggregation pipeline of the
company-profile application (stock_app.py and the per-dataset modules
get_sec.py, dispute.py, jobsearch.py, layoff.py, h1b.py, utils.py).

The Python code is shallowly embedded: strings are `List Char` or `String`,
pandas frames are lists of row structures, raised exceptions are
`Except.error`, `None` is `none`, and the fuzzywuzzy scorer is an abstract
parameter `scorer : String → Nat` (its output ranking is modelled exactly:
stable descending sort by score, truncated to the library's default limit
of 5 results).
-/

/-- View of `Except` as a sum, to decide equality of modelled outcomes. -/
def exceptToSum {ε α : Type} : Except ε α → ε ⊕ α
  | Except.error e => Sum.inl e
  | Except.ok a => Sum.inr a

instance {ε α : Type} [DecidableEq ε] [DecidableEq α] : DecidableEq (Except ε α) := fun a b =>
  decidable_of_iff (exceptToSum a = exceptToSum b)
    (by cases a <;> cases b <;> simp [exceptToSum])

/-! ## Python string primitives -/

def spaceChar : Char := ' '

def quoteChar : Char := Char.ofNat 34

/-- Python `str.strip()` on the left: drop leading whitespace. -/
def lstripChars (l : List Char) : List Char :=
  l.dropWhile Char.isWhitespace

/-- Python `str.strip()` on the right: drop trailing whitespace. -/
def rstripChars (l : List Char) : List Char :=
  (l.reverse.dropWhile Char.isWhitespace).reverse

/-- Python `str.strip()`: drop leading and trailing whitespace. -/
def pyStrip (l : List Char) : List Char :=
  rstripChars (lstripChars l)

/-- Python `s[:-n]`: drop the last `n` characters. -/
def pyDropRight (l : List Char) (n : Nat) : List Char :=
  l.take (l.length - n)

/-! ## Python collection primitives -/

/-- Helper for `pyUnique`: keep the first occurrence of each element. -/
def pyUniqueAux {α : Type} [DecidableEq α] (seen : List α) : List α → List α
  | [] => []
  | x :: xs => if x ∈ seen then pyUniqueAux seen xs else x :: pyUniqueAux (x :: seen) xs

/-- Model of pandas `Series.unique()` and of iterating a dict's keys:
deduplication keeping the first occurrence, in encounter order. -/
def pyUnique {α : Type} [DecidableEq α] (l : List α) : List α :=
  pyUniqueAux [] l

/-- Stable descending insertion by score: an element moves ahead of another
only when its score is strictly larger, so equal scores keep first-seen
order, as fuzzywuzzy's ranking does. -/
def insertDesc (x : String × Nat) : List (String × Nat) → List (String × Nat)
  | [] => [x]
  | y :: ys => if y.2 < x.2 then x :: y :: ys else y :: insertDesc x ys

/-- Stable sort, descending by score. -/
def sortDesc : List (String × Nat) → List (String × Nat)
  | [] => []
  | x :: xs => insertDesc x (sortDesc xs)

/-- Model of fuzzywuzzy `process.extract(query, choices)`: score every
choice with the abstract scorer, rank descending by score (stable), and
return the library's default limit of 5 best results. -/
def pyExtract (scorer : String → Nat) (choices : List String) : List (String × Nat) :=
  (sortDesc (choices.map (fun c => (c, scorer c)))).take 5

/-- Model of fuzzywuzzy `process.extractOne`: the best-ranked result, if any. -/
def pyExtractOne (scorer : String → Nat) (choices : List String) : Option (String × Nat) :=
  (pyExtract scorer choices).head?

/-- Keys of the Python dict built by `{data['title']: data['cik_str'] for ...}`:
first-insertion order, one entry per distinct title. -/
def pyDictKeys (data : List (String × Nat)) : List String :=
  pyUnique (data.map (fun p => p.1))

/-- Lookup in that dict: a repeated key keeps the value assigned last. -/
def pyDictGet (data : List (String × Nat)) (k : String) : Nat :=
  match (data.filter (fun p => p.1 == k)).getLast? with
  | some p => p.2
  | none => 0

/-! ## get_sec.py — cache (`load_cache`) and identity resolution (`get_ticker_or_cik`) -/

/-- `CACHE_DURATION = timedelta(days=7)`, in seconds. -/
def CACHE_DURATION : Int := 7 * 86400

/-- The observable states of the on-disk cache file `company_tickers_cache.json`:
absent, unparsable JSON, or a parsed record whose `timestamp` field is
missing (`none`), present but not ISO-parsable (`some none`), or parsed
(`some (some t)`), together with the optional `companies` payload. -/
inductive CacheFile (α : Type) : Type
  | absent : CacheFile α
  | malformed : CacheFile α
  | record (timestampField : Option (Option Int)) (companies : Option α) : CacheFile α

/-- `load_cache()` of get_sec.py. The file is read only if it exists; the
JSON parse, the `timestamp` field access and `datetime.fromisoformat` are
not guarded, so they raise on corrupt state; a parsed entry is returned
only while `now - cache_time < CACHE_DURATION`. -/
def load_cache {α : Type} (file : CacheFile α) (now : Int) : Except String (Option α) :=
  match file with
  | CacheFile.absent => Except.ok none
  | CacheFile.malformed => Except.error "json.JSONDecodeError"
  | CacheFile.record ts payload =>
    match ts with
    | none => Except.error "TypeError: fromisoformat expects str"
    | some none => Except.error "ValueError: invalid isoformat string"
    | some (some t) => if now - t < CACHE_DURATION then Except.ok payload else Except.ok none

/-- `get_ticker_or_cik(company_name)` of get_sec.py, parameterized by the
fetched company data (a list of `(title, cik_str)` records, in the JSON
object's order) and by the fuzzy scorer for the queried name. Returns
`ok none` for the `(None, None)` outcomes, `ok (some (title, cik))` for an
accepted match; unpacking `extractOne`'s `None` result would raise. -/
def get_ticker_or_cik (scorer : String → Nat) (company_data : List (String × Nat)) :
    Except String (Option (String × Nat)) :=
  if company_data.isEmpty then Except.ok none
  else
    match pyExtractOne scorer (pyDictKeys company_data) with
    | none => Except.error "TypeError: cannot unpack None"
    | some (m, s) => if 70 < s then Except.ok (some (m, pyDictGet company_data m)) else Except.ok none

/-! ## dispute.py — name normalization (`_normalize_company_name`) -/

/-- The suffix list of `_normalize_company_name`, in source order. -/
def company_suffixes : List String :=
  ["Inc", "Inc.", "Incorporated",
   "Corp", "Corp.", "Corporation",
   "LLC", "L.L.C.", "Limited Liability Company",
   "Ltd", "Ltd.", "Limited",
   "Co", "Co.", "Company"]

/-- The base-name computation of `_normalize_company_name`: strip the input,
then remove the first listed suffix the stripped name ends with
(`name.endswith(" " + suffix)`, then `name[:-len(suffix)].strip()`). -/
def base_name_of (company_name : List Char) : List Char :=
  let name := pyStrip company_name
  match company_suffixes.find? (fun s => (spaceChar :: s.toList).isSuffixOf name) with
  | some s => pyStrip (pyDropRight name s.toList.length)
  | none => name

/-- Python `f'"{x}"'`. -/
def quoteName (l : List Char) : List Char :=
  quoteChar :: (l ++ [quoteChar])

/-- `_normalize_company_name(company_name)` of dispute.py: the variant list
`[name, base_name, quoted name, quoted base_name] + [base_name + " " + s]`
passed through `list(set(...))`; the set's arbitrary iteration order is
modelled as first-occurrence order, which does not affect membership. -/
def normalize_company_name (company_name : List Char) : List (List Char) :=
  let name := pyStrip company_name
  let base_name := base_name_of company_name
  pyUnique ([name, base_name, quoteName name, quoteName base_name] ++
    company_suffixes.map (fun s => base_name ++ spaceChar :: s.toList))

/-! ## jobsearch.py — bounded retry (`get_company_jobs`) -/

/-- Semantics of tenacity `@retry(stop=stop_after_attempt(maxA))` around an
operation, modelled as `op : Nat → Except String α` giving each attempt's
outcome (attempts numbered from 1): retry on failure while attempts remain,
and after the final failed attempt raise carrying the last error (tenacity's
`RetryError` wraps the last attempt). Returns the outcome and the number of
attempts actually made. -/
def retryAttempts {α : Type} (op : Nat → Except String α) :
    Nat → Nat → Except String α × Nat
  | 0, next => (Except.error "RetryError", next)
  | remaining + 1, next =>
    match op next with
    | Except.ok a => (Except.ok a, next)
    | Except.error e =>
      if remaining = 0 then (Except.error e, next) else retryAttempts op remaining (next + 1)

/-- `_retryable_job_search` of jobsearch.py: the job search wrapped with
`stop_after_attempt(3)`. -/
def retryable_job_search {α : Type} (op : Nat → Except String α) : Except String α × Nat :=
  retryAttempts op 3 1

/-- The value `get_company_jobs` returns: a job DataFrame-like value, or the
empty `pd.DataFrame()` fallback produced by its `except` clause. -/
inductive JobsOut (α : Type) : Type
  | value (a : α) : JobsOut α
  | emptyFrame : JobsOut α
deriving DecidableEq

/-- `get_company_jobs` of jobsearch.py: run the retry-wrapped search; any
exception escaping it (including retry exhaustion) is caught and converted
to an empty DataFrame, so the function itself never raises. The second
component is the number of attempts made. -/
def get_company_jobs {α : Type} (op : Nat → Except String α) :
    Except String (JobsOut α) × Nat :=
  match retryable_job_search op with
  | (Except.ok a, n) => (Except.ok (JobsOut.value a), n)
  | (Except.error _, n) => (Except.ok JobsOut.emptyFrame, n)

/-! ## layoff.py — WARN-notice lookup (`layoffs`) -/

/-- A row of `data/filtered_WARN_data.xlsx`: the `Company` cell (possibly
NaN) and the rest of the row abstracted to a tag. -/
structure WarnRow : Type where
  company : Option String
  tag : Nat
deriving DecidableEq

/-- `layoffs(company_name)` of layoff.py, parameterized by the loaded sheet
and the fuzzy scorer. `matches` is nonempty exactly when the deduplicated
company column is; the `>= 80` filter then feeds an unguarded
`matched_names[0]`, which raises `IndexError` when every match scores
below 80. -/
def layoffs (scorer : String → Nat) (df : List WarnRow) :
    Except String (Option (List WarnRow)) :=
  let unique_names := pyUnique (df.filterMap (fun r => r.company))
  let matchList := pyExtract scorer unique_names
  if matchList.isEmpty then Except.ok none
  else
    let matched_names := (matchList.filter (fun m => 80 ≤ m.2)).map (fun m => m.1)
    match matched_names.head? with
    | none => Except.error "IndexError: list index out of range"
    | some target => Except.ok (some (df.filter (fun r => r.company == some target)))

/-! ## utils.py — `get_ticker` and `validate_symbol` -/

/-- A row of `data/companies.csv`: `title` (possibly NaN) and `ticker`. -/
structure SecRow : Type where
  title : Option String
  ticker : String
deriving DecidableEq

/-- `get_ticker(input_company)` of utils.py, parameterized by the loaded
table and the fuzzy scorer. The `else` branch of the final `if` leaves the
local `ticker` unbound, so the `return ticker` after it would raise
`UnboundLocalError`. -/
def get_ticker (scorer : String → Nat) (table : List SecRow) :
    Except String (Option String) :=
  let company_names := pyUnique (table.filterMap (fun r => r.title))
  match pyExtract scorer company_names with
  | [] => Except.ok none
  | (best_match, _) :: _ =>
    match table.filter (fun r => r.title == some best_match) with
    | [] => Except.error "UnboundLocalError: ticker"
    | row :: _ => Except.ok (some row.ticker)

/-- `validate_symbol(symbol)` of utils.py: truthy, truthy after strip, and
`str.isalnum()` (which itself requires non-emptiness). -/
def validate_symbol (symbol : List Char) : Bool :=
  !symbol.isEmpty && !(pyStrip symbol).isEmpty && (!symbol.isEmpty && symbol.all Char.isAlphanum)

/-! ## stock_app.py — the aggregation entry point (`fetch_all_data`) -/

/-- An abstract pandas DataFrame: only its identity and `empty` flag are
observed by the orchestrator. -/
structure DF : Type where
  isEmptyFlag : Bool
  tag : Nat
deriving DecidableEq

/-- The outcomes of the external operations `fetch_all_data` performs, one
field per call site: `getTicker` may raise or return a ticker or `None`;
`fetch_stock_data` and `fetch_historical_data` catch internally and return
a success flag plus data; the per-dataset calls may raise (`Except.error`)
or return their value. -/
structure FetchOps : Type where
  companyName : List Char
  getTicker : Except String (Option (List Char))
  stockSuccess : Bool
  stockData : String
  histSuccess : Bool
  histData : String
  h1b : Except String (Option DF)
  layoff : Except String (Option DF)
  jobs : Except String (Option DF)
  dispute : Except String String
  sec : Except String String

/-- The aggregate report: what the completed worker thread schedules on the
UI, one field per dataset. `layoffEarly = none` models `clear_layoff_tab`;
`layoffLate`/`jobsLate` are the arguments of the final unconditional
display calls, `none` meaning the lambda closes over a local that was never
bound (a `NameError` when the callback fires). -/
structure Report : Type where
  overview : String
  charts : String
  h1bChart : Option DF
  layoffEarly : Option DF
  layoffLate : Option (Option DF)
  jobsEarly : Option (Option DF)
  jobsLate : Option (Option DF)
  disputeText : String
  secText : String
deriving DecidableEq

/-- The layoff branch of `fetch_all_data`'s worker: `layoffs` raising is
caught (tab cleared, `layoff_df` left unbound); a `None` result raises
`AttributeError` at `layoff_df.empty` inside the same `try` (tab cleared,
`layoff_df` bound to `None`); an empty frame clears the tab; a non-empty
frame is displayed. The final display call always closes over `layoff_df`. -/
def layoffBranch (r : Except String (Option DF)) : Option DF × Option (Option DF) :=
  match r with
  | Except.error _ => (none, none)
  | Except.ok none => (none, some none)
  | Except.ok (some df) => (if df.isEmptyFlag then none else some df, some (some df))

/-- The jobs branch: success displays the value (possibly `None`); an
exception displays `None` and leaves `jobs_df` unbound for the final
display call. -/
def jobsBranch (r : Except String (Option DF)) : Option (Option DF) × Option (Option DF) :=
  match r with
  | Except.error _ => (some none, none)
  | Except.ok v => (some v, some v)

/-- `fetch_all_data` of stock_app.py (together with the `fetch_thread` body
it spawns), as a function of the outcomes of its external calls.
`Except.error` is an exception escaping the call or its worker thread;
`ok none` is an early return that produces no aggregate report (empty name,
invalid symbol, failed stock or historical fetch); `ok (some r)` is a
completed report. Note `symbol = ticker.upper()` runs before the
`if not ticker` guard, so a `None` ticker raises `AttributeError`, and
`process_and_match_companies` is not wrapped in any `try`. -/
def fetch_all_data (ops : FetchOps) : Except String (Option Report) :=
  let company_name := pyStrip ops.companyName
  if company_name.isEmpty then Except.ok none
  else
    match ops.getTicker with
    | Except.error e => Except.error e
    | Except.ok none => Except.error "AttributeError: NoneType has no attribute upper"
    | Except.ok (some tk) =>
      let symbol := tk.map Char.toUpper
      if !(validate_symbol symbol) then Except.ok none
      else if !ops.stockSuccess then Except.ok none
      else if !ops.histSuccess then Except.ok none
      else
        match ops.h1b with
        | Except.error e => Except.error e
        | Except.ok h1b_df =>
          let lay := layoffBranch ops.layoff
          let job := jobsBranch ops.jobs
          let disputeReport :=
            match ops.dispute with
            | Except.ok s => s
            | Except.error e => "Error generating legal report: " ++ e
          let summary :=
            match ops.sec with
            | Except.ok s => s
            | Except.error e => "Error generating 10K summary: " ++ e
          Except.ok (some
            { overview := ops.stockData
              charts := ops.histData
              h1bChart := h1b_df
              layoffEarly := lay.1
              layoffLate := lay.2
              jobsEarly := job.1
              jobsLate := job.2
              disputeText := disputeReport
              secText := summary })

/-! ## Claim theorems -/

/-- C2, counterexample: one candidate scoring exactly the threshold 70.
The claim says this is ACCEPTED (boundary inclusive); `get_ticker_or_cik`
uses `score > 70`, so the outcome is the rejected `(None, None)` -/
theorem C2_cex :
    get_ticker_or_cik (fun _ => 70) [("Acme", 7)] = Except.ok none ∧
    get_ticker_or_cik (fun _ => 70) [("Acme", 7)] ≠ Except.ok (some ("Acme", 7)) := by
  decide

/-- C2, amended: the gate is boundary-exclusive. With a nonempty company
table and top-ranked match `(m, s)`: `s > 70` is accepted with `m`'s CIK,
and `s ≤ 70` (so also a score exactly at, or one below, 70) is rejected
as `(None, None)`. -/
theorem C2_threshold_exclusive (scorer : String → Nat) (data : List (String × Nat))
    (m : String) (s : Nat) (hne : data ≠ [])
    (htop : pyExtractOne scorer (pyDictKeys data) = some (m, s)) :
    (70 < s → get_ticker_or_cik scorer data = Except.ok (some (m, pyDictGet data m))) ∧
    (s ≤ 70 → get_ticker_or_cik scorer data = Except.ok none) := by
  have hie : data.isEmpty = false := by
    cases data with
    | nil => exact absurd rfl hne
    | cons a t => rfl
  constructor
  · intro h
    simp [get_ticker_or_cik, hie, htop, h]
  · intro h
    simp [get_ticker_or_cik, hie, htop, Nat.not_lt.mpr h]

/-- Witness for C2_threshold_exclusive: top score 71 on a one-entry table
is accepted. -/
theorem C2_threshold_exclusive_w :
    get_ticker_or_cik (fun _ => 71) [("Acme", 7)] = Except.ok (some ("Acme", 7)) :=
  (C2_threshold_exclusive (fun _ => 71) [("Acme", 7)] "Acme" 71 (by decide) (by decide)).1
    (by decide)

/-- C3, counterexample: two candidates scoring 95 and 94 (threshold 70,
runner-up within the claimed 10-point margin). The claim says AMBIGUOUS,
not ACCEPTED; the code has no ambiguity margin and no AMBIGUOUS outcome,
and accepts the top candidate alone. -/
theorem C3_cex :
    get_ticker_or_cik (fun c => if c = "Alpha" then 95 else 94) [("Alpha", 1), ("Beta", 2)] =
      Except.ok (some ("Alpha", 1)) := by
  decide

/-- C3, amended: `get_ticker_or_cik` applies no ambiguity margin: whenever
the ranked list has a second-best candidate — at any score, however close
to the top — a top score above 70 still accepts the top candidate only. -/
theorem C3_no_margin (scorer : String → Nat) (data : List (String × Nat))
    (m : String) (s : Nat) (m2 : String) (s2 : Nat) (rest : List (String × Nat))
    (hne : data ≠ [])
    (hrank : pyExtract scorer (pyDictKeys data) = (m, s) :: (m2, s2) :: rest)
    (hs : 70 < s) :
    get_ticker_or_cik scorer data = Except.ok (some (m, pyDictGet data m)) := by
  have hie : data.isEmpty = false := by
    cases data with
    | nil => exact absurd rfl hne
    | cons a t => rfl
  have htop : pyExtractOne scorer (pyDictKeys data) = some (m, s) := by
    rw [pyExtractOne, hrank]
    rfl
  simp [get_ticker_or_cik, hie, htop, hs]

/-- Witness for C3_no_margin: scores 95 and 80 accept the top candidate,
as the claim's second half states. -/
theorem C3_no_margin_w :
    get_ticker_or_cik (fun c => if c = "Alpha" then 95 else 80) [("Alpha", 1), ("Beta", 2)] =
      Except.ok (some ("Alpha", 1)) :=
  C3_no_margin (fun c => if c = "Alpha" then 95 else 80) [("Alpha", 1), ("Beta", 2)]
    "Alpha" 95 "Beta" 80 [] (by decide) (by decide) (by decide)

/-- C4, counterexample: for an operation failing on every attempt,
`get_company_jobs` does not raise after 3 attempts — its `except` clause
catches the retry-exhaustion error and returns the empty DataFrame. -/
theorem C4_cex :
    get_company_jobs (fun i => (Except.error (toString i) : Except String Nat)) =
      (Except.ok JobsOut.emptyFrame, 3) := by
  decide

/-- C4, amended: an operation failing on attempts 1 and 2 and succeeding on
attempt 3 makes `get_company_jobs` return the success value after exactly 3
attempts (no 4th attempt: the attempt counter stops at 3); for an
always-failing operation, the inner `_retryable_job_search` raises after
exactly 3 attempts carrying the last underlying error, and
`get_company_jobs` catches that and returns the empty-DataFrame fallback
instead of raising. -/
theorem C4_retry_semantics {α : Type} (op fop : Nat → Except String α) (v : α)
    (e1 e2 : String) (err : Nat → String)
    (h1 : op 1 = Except.error e1) (h2 : op 2 = Except.error e2)
    (h3 : op 3 = Except.ok v)
    (hf : ∀ i, fop i = Except.error (err i)) :
    get_company_jobs op = (Except.ok (JobsOut.value v), 3) ∧
    retryable_job_search fop = (Except.error (err 3), 3) ∧
    get_company_jobs fop = (Except.ok JobsOut.emptyFrame, 3) := by
  refine ⟨?_, ?_, ?_⟩
  · simp [get_company_jobs, retryable_job_search, retryAttempts, h1, h2, h3]
  · simp [retryable_job_search, retryAttempts, hf 1, hf 2, hf 3]
  · simp [get_company_jobs, retryable_job_search, retryAttempts, hf 1, hf 2, hf 3]

/-- Witness for C4_retry_semantics at concrete operations. -/
theorem C4_retry_semantics_w :
    get_company_jobs (fun i => if 3 ≤ i then Except.ok 7 else Except.error "down") =
      (Except.ok (JobsOut.value 7), 3) ∧
    retryable_job_search (fun i => (Except.error (toString i) : Except String Nat)) =
      (Except.error "3", 3) ∧
    get_company_jobs (fun i => (Except.error (toString i) : Except String Nat)) =
      (Except.ok JobsOut.emptyFrame, 3) :=
  C4_retry_semantics (fun i => if 3 ≤ i then Except.ok 7 else Except.error "down")
    (fun i => (Except.error (toString i) : Except String Nat)) 7 "down" "down" toString
    (by decide) (by decide) (by decide) (fun i => rfl)

/-- C5: a well-formed cache entry is a HIT exactly while
`now - fetchedAt < CACHE_DURATION` (strict), and a MISS when the entry is
absent or `now - fetchedAt ≥ CACHE_DURATION`. -/
theorem C5_cache_ttl {α : Type} (p : α) (t now : Int) :
    (load_cache (CacheFile.record (some (some t)) (some p)) now = Except.ok (some p) ↔
      now - t < CACHE_DURATION) ∧
    load_cache (CacheFile.absent : CacheFile α) now = Except.ok none ∧
    (CACHE_DURATION ≤ now - t →
      load_cache (CacheFile.record (some (some t)) (some p)) now = Except.ok none) := by
  refine ⟨?_, rfl, ?_⟩
  · by_cases h : now - t < CACHE_DURATION
    · simp [load_cache, h]
    · simp [load_cache, h]
  · intro h
    simp [load_cache, not_lt.mpr h]

/-- Witness for C5_cache_ttl: an entry written 1 hour ago is a HIT; one
written 8 days ago is a MISS (TTL = 7 days = 604800 s). -/
theorem C5_cache_ttl_w :
    load_cache (CacheFile.record (some (some (0 : Int))) (some (0 : Nat))) 3600 =
      Except.ok (some 0) ∧
    load_cache (CacheFile.record (some (some (0 : Int))) (some (0 : Nat))) 691200 =
      Except.ok none :=
  ⟨(C5_cache_ttl (0 : Nat) 0 3600).1.mpr (by decide),
   (C5_cache_ttl (0 : Nat) 0 691200).2.2 (by decide)⟩

/-- C6, counterexample: a cache file holding malformed JSON makes
`load_cache` raise the JSON parse error rather than report a MISS. -/
theorem C6_cex :
    load_cache (CacheFile.malformed : CacheFile Nat) 0 = Except.error "json.JSONDecodeError" ∧
    load_cache (CacheFile.malformed : CacheFile Nat) 0 ≠ Except.ok none := by
  decide

/-- C6, amended: `load_cache` returns a MISS only when the cache file is
absent or the entry is stale; malformed JSON, a missing `timestamp` field
and an unparsable timestamp all raise the underlying error out of
`load_cache` instead of being treated as a MISS. -/
theorem C6_corrupt_raises {α : Type} (payload : Option α) (ts now : Int) :
    load_cache (CacheFile.absent : CacheFile α) now = Except.ok none ∧
    load_cache (CacheFile.malformed : CacheFile α) now = Except.error "json.JSONDecodeError" ∧
    load_cache (CacheFile.record none payload) now =
      Except.error "TypeError: fromisoformat expects str" ∧
    load_cache (CacheFile.record (some none) payload) now =
      Except.error "ValueError: invalid isoformat string" ∧
    (CACHE_DURATION ≤ now - ts →
      load_cache (CacheFile.record (some (some ts)) payload) now = Except.ok none) := by
  refine ⟨rfl, rfl, rfl, rfl, fun h => ?_⟩
  simp [load_cache, not_lt.mpr h]

/-- Witness for C6_corrupt_raises. -/
theorem C6_corrupt_raises_w :
    load_cache (CacheFile.record none (some (1 : Nat))) 0 =
      Except.error "TypeError: fromisoformat expects str" ∧
    load_cache (CacheFile.record (some (some (0 : Int))) (some (1 : Nat))) 604800 =
      Except.ok none :=
  ⟨(C6_corrupt_raises (some (1 : Nat)) 0 0).2.2.1,
   (C6_corrupt_raises (some (1 : Nat)) 0 604800).2.2.2.2 (by decide)⟩

/-- C8: when fuzzy matches exist but all score below the 80 threshold,
`layoffs` evaluates `matched_names[0]` on an empty list and raises
`IndexError` — it does not return the normal rejected/empty outcome the
spec requires. Here the single WARN company scores 50. -/
theorem C8_below_threshold_raises :
    layoffs (fun _ => 50) [⟨some "Xcorp", 0⟩] =
      Except.error "IndexError: list index out of range" := by
  decide

/-- Expansion of `pyUnique` at a cons cell: the head is always kept. -/
theorem pyUnique_cons {α : Type} [DecidableEq α] (x : α) (xs : List α) :
    pyUnique (x :: xs) = x :: pyUniqueAux [x] xs := by
  simp [pyUnique, pyUniqueAux]

/-- C7, counterexample: `_normalize_company_name` strips the input before
building variants, so for the raw input `" Apple "` (with the whitespace
the user typed) the variant list does not contain the original raw string. -/
theorem C7_cex :
    ¬ (" Apple ".toList ∈ normalize_company_name (" Apple ".toList)) := by
  decide

/-- C7, amended: for every raw name the variant list is non-empty and
contains the stripped input `name = company_name.strip()`; the original
raw input itself is therefore contained exactly when it carries no leading
or trailing whitespace. -/
theorem C7_variants (raw : List Char) :
    normalize_company_name raw ≠ [] ∧
    pyStrip raw ∈ normalize_company_name raw ∧
    (pyStrip raw = raw → raw ∈ normalize_company_name raw) := by
  have hx : normalize_company_name raw =
      pyStrip raw :: pyUniqueAux [pyStrip raw]
        ([base_name_of raw, quoteName (pyStrip raw), quoteName (base_name_of raw)] ++
          company_suffixes.map (fun s => base_name_of raw ++ spaceChar :: s.toList)) :=
    pyUnique_cons _ _
  refine ⟨?_, ?_, ?_⟩
  · rw [hx]
    exact List.cons_ne_nil _ _
  · rw [hx]
    exact List.mem_cons_self _ _
  · intro h
    rw [hx, h]
    exact List.mem_cons_self _ _

/-- Witness for C7_variants at a whitespace-free input. -/
theorem C7_variants_w : "Apple".toList ∈ normalize_company_name ("Apple".toList) :=
  (C7_variants ("Apple".toList)).2.2 (by decide)

/-- C1, counterexample: a query for which only the current-stock fetch
fails (all other sources healthy). `fetch_all_data`'s worker returns early
after displaying an error: the result carries no aggregate report at all —
the failing source is not marked unavailable within a returned report, and
none of the other datasets' outcomes are produced. -/
theorem C1_cex :
    fetch_all_data ⟨"Nvidia".toList, Except.ok (some ("NVDA".toList)), false, "sd", true, "hd",
      Except.ok none, Except.ok none, Except.ok none, Except.ok "d", Except.ok "s"⟩ =
      Except.ok none := by
  decide

/-- C1, amended: failure isolation holds only for the four wrapped sources
(layoff, job search, legal disputes, 10-K summary). When the name is
non-empty, ticker resolution, symbol validation, the stock and historical
fetches and the H1B step all succeed, then whatever the four wrapped
sources do — raise or return — the call raises nothing and a complete
report is produced, in which each failed wrapped source is marked by its
fallback (cleared layoff tab, `None` job display, error strings) and each
successful one carries its value; failures of the unwrapped steps instead
abort the report (see the counterexample). -/
theorem C1_wrapped_isolation (ops : FetchOps) (tk : List Char) (hdf : Option DF)
    (hname : (pyStrip ops.companyName).isEmpty = false)
    (htk : ops.getTicker = Except.ok (some tk))
    (hval : validate_symbol (tk.map Char.toUpper) = true)
    (hstock : ops.stockSuccess = true)
    (hhist : ops.histSuccess = true)
    (hh1b : ops.h1b = Except.ok hdf) :
    ∃ r : Report,
      fetch_all_data ops = Except.ok (some r) ∧
      (∀ e, ops.layoff = Except.error e → r.layoffEarly = none) ∧
      (∀ df, ops.layoff = Except.ok (some df) → df.isEmptyFlag = false → r.layoffEarly = some df) ∧
      (∀ e, ops.jobs = Except.error e → r.jobsEarly = some none) ∧
      (∀ v, ops.jobs = Except.ok v → r.jobsEarly = some v) ∧
      (∀ e, ops.dispute = Except.error e → r.disputeText = "Error generating legal report: " ++ e) ∧
      (∀ s, ops.dispute = Except.ok s → r.disputeText = s) ∧
      (∀ e, ops.sec = Except.error e → r.secText = "Error generating 10K summary: " ++ e) ∧
      (∀ s, ops.sec = Except.ok s → r.secText = s) := by
  refine ⟨{ overview := ops.stockData, charts := ops.histData, h1bChart := hdf,
            layoffEarly := (layoffBranch ops.layoff).1,
            layoffLate := (layoffBranch ops.layoff).2,
            jobsEarly := (jobsBranch ops.jobs).1,
            jobsLate := (jobsBranch ops.jobs).2,
            disputeText := match ops.dispute with
              | Except.ok s => s
              | Except.error e => "Error generating legal report: " ++ e,
            secText := match ops.sec with
              | Except.ok s => s
              | Except.error e => "Error generating 10K summary: " ++ e },
          ?_, ?_, ?_, ?_, ?_, ?_, ?_, ?_, ?_⟩
  · simp [fetch_all_data, hname, htk, hval, hstock, hhist, hh1b]
  · intro e h
    rw [h]
    rfl
  · intro df h hf
    rw [h]
    simp [layoffBranch, hf]
  · intro e h
    rw [h]
    rfl
  · intro v h
    rw [h]
    rfl
  · intro e h
    rw [h]
  · intro s h
    rw [h]
  · intro e h
    rw [h]
  · intro s h
    rw [h]

/-- Witness for C1_wrapped_isolation: layoff and dispute sources raising,
jobs and 10-K succeeding — a report is still returned. -/
theorem C1_wrapped_isolation_w :
    (fetch_all_data ⟨"Nvidia".toList, Except.ok (some ("NVDA".toList)), true, "sd", true, "hd",
      Except.ok none, Except.error "warn down", Except.ok (some ⟨false, 2⟩),
      Except.error "cl down", Except.ok "sum"⟩).toOption ≠ none := by
  obtain ⟨r, h1, -⟩ :=
    C1_wrapped_isolation
      ⟨"Nvidia".toList, Except.ok (some ("NVDA".toList)), true, "sd", true, "hd",
        Except.ok none, Except.error "warn down", Except.ok (some ⟨false, 2⟩),
        Except.error "cl down", Except.ok "sum"⟩
      ("NVDA".toList) none (by decide) rfl (by decide) rfl rfl rfl
  rw [h1]
  simp [Except.toOption]

/-! ## Helper lemmas on the string and ranking primitives -/

/-- `dropWhile` is idempotent. -/
theorem dropWhile_idem (p : Char → Bool) (l : List Char) :
    (l.dropWhile p).dropWhile p = l.dropWhile p := by
  induction l with
  | nil => rfl
  | cons a t ih =>
    by_cases h : p a
    · simp [List.dropWhile_cons, h, ih]
    · simp [List.dropWhile_cons, h]

/-- The head surviving a `dropWhile` fails the predicate. -/
theorem dropWhile_head_false (p : Char → Bool) (l : List Char) (a : Char) (t : List Char)
    (h : l.dropWhile p = a :: t) : p a = false := by
  induction l with
  | nil => simp at h
  | cons b u ih =>
    rw [List.dropWhile_cons] at h
    by_cases hb : p b
    · rw [if_pos hb] at h
      exact ih h
    · rw [if_neg hb] at h
      injection h with h1 h2
      subst h1
      simp at hb
      exact hb

/-- A list whose head fails the predicate is unchanged by `dropWhile`. -/
theorem dropWhile_of_head_false (p : Char → Bool) (l : List Char)
    (h : ∀ a t, l = a :: t → p a = false) : l.dropWhile p = l := by
  cases l with
  | nil => rfl
  | cons a t =>
    rw [List.dropWhile_cons, h a t rfl]
    simp

/-- `dropWhile` preserves the last element unless it drops everything. -/
theorem dropWhile_getLast_eq (p : Char → Bool) (l : List Char) :
    l.dropWhile p = [] ∨ (l.dropWhile p).getLast? = l.getLast? := by
  induction l with
  | nil => exact Or.inl rfl
  | cons a t ih =>
    rw [List.dropWhile_cons]
    by_cases h : p a
    · rw [if_pos h]
      cases hdt : t.dropWhile p with
      | nil => exact Or.inl rfl
      | cons b u =>
        right
        have ht : t ≠ [] := by
          intro h0
          rw [h0] at hdt
          simp at hdt
        rcases ih with h1 | h1
        · rw [h1] at hdt
          cases hdt
        · rw [← hdt, h1]
          cases t with
          | nil => exact absurd rfl ht
          | cons c t2 => rw [List.getLast?_cons_cons]
    · rw [if_neg h]
      exact Or.inr rfl

/-- A stripped string has no leading whitespace left. -/
theorem lstrip_pyStrip (l : List Char) : lstripChars (pyStrip l) = pyStrip l := by
  show (pyStrip l).dropWhile Char.isWhitespace = pyStrip l
  apply dropWhile_of_head_false
  intro a t h
  have hBrev : ((lstripChars l).reverse.dropWhile Char.isWhitespace).reverse = a :: t := h
  have hBne : (lstripChars l).reverse.dropWhile Char.isWhitespace ≠ [] := by
    intro h0
    rw [h0] at hBrev
    simp at hBrev
  have hlast : ((lstripChars l).reverse.dropWhile Char.isWhitespace).getLast? = some a := by
    rw [← List.head?_reverse, hBrev]
    rfl
  rcases dropWhile_getLast_eq Char.isWhitespace (lstripChars l).reverse with h1 | h1
  · exact absurd h1 hBne
  · have h2 : (lstripChars l).head? = some a := by
      rw [← List.getLast?_reverse, ← h1, hlast]
    cases hA : lstripChars l with
    | nil =>
      rw [hA] at h2
      cases h2
    | cons b u =>
      rw [hA] at h2
      simp at h2
      rw [← h2]
      exact dropWhile_head_false Char.isWhitespace l b u hA

/-- Python `strip()` is idempotent. -/
theorem pyStrip_idem (l : List Char) : pyStrip (pyStrip l) = pyStrip l := by
  have h1 : pyStrip (pyStrip l) = rstripChars (lstripChars (pyStrip l)) := rfl
  rw [h1, lstrip_pyStrip]
  show ((((lstripChars l).reverse.dropWhile Char.isWhitespace).reverse).reverse.dropWhile
    Char.isWhitespace).reverse = pyStrip l
  rw [List.reverse_reverse, dropWhile_idem]
  rfl

/-- The base name produced by `_normalize_company_name` is already stripped. -/
theorem base_name_pyStrip (x : List Char) : pyStrip (base_name_of x) = base_name_of x := by
  have expand : base_name_of x =
      match company_suffixes.find? (fun s => (spaceChar :: s.toList).isSuffixOf (pyStrip x)) with
      | some s => pyStrip (pyDropRight (pyStrip x) s.toList.length)
      | none => pyStrip x := rfl
  rw [expand]
  cases hf : company_suffixes.find? (fun s => (spaceChar :: s.toList).isSuffixOf (pyStrip x)) with
  | none => exact pyStrip_idem x
  | some s => exact pyStrip_idem _

/-- C9, counterexample: the base-name computation strips only the first
matching suffix, so for `"X Co Inc"` the first pass yields `"X Co"` and a
second pass strips again to `"X"` — suffix stripping is not idempotent. -/
theorem C9_cex :
    base_name_of (base_name_of ("X Co Inc".toList)) ≠ base_name_of ("X Co Inc".toList) := by
  decide

/-- C9, amended: a single pass strips at most one recognized suffix, so
re-normalizing the base form is the identity exactly on base forms that no
longer end in `" " + suffix` for any recognized suffix; when the base form
still ends in one (e.g. `"X Co"` from `"X Co Inc"`) a second pass strips
further. -/
theorem C9_idem_on_suffix_free (x : List Char)
    (h : company_suffixes.find?
      (fun s => (spaceChar :: s.toList).isSuffixOf (base_name_of x)) = none) :
    base_name_of (base_name_of x) = base_name_of x := by
  have expand : base_name_of (base_name_of x) =
      match company_suffixes.find?
          (fun s => (spaceChar :: s.toList).isSuffixOf (pyStrip (base_name_of x))) with
        | some s => pyStrip (pyDropRight (pyStrip (base_name_of x)) s.toList.length)
        | none => pyStrip (base_name_of x) := rfl
  rw [expand, base_name_pyStrip, h]

/-- Witness for C9_idem_on_suffix_free: the base form of `"Apple Inc"` is
`"Apple"`, which ends in no recognized suffix. -/
theorem C9_idem_on_suffix_free_w :
    base_name_of (base_name_of ("Apple Inc".toList)) = base_name_of ("Apple Inc".toList) :=
  C9_idem_on_suffix_free ("Apple Inc".toList) (by decide)

/-- Members of `pyUniqueAux` come from the scanned list. -/
theorem pyUniqueAux_subset {α : Type} [DecidableEq α] (x : α) (seen l : List α)
    (h : x ∈ pyUniqueAux seen l) : x ∈ l := by
  induction l generalizing seen with
  | nil => simp [pyUniqueAux] at h
  | cons a t ih =>
    simp only [pyUniqueAux] at h
    by_cases ha : a ∈ seen
    · rw [if_pos ha] at h
      exact List.mem_cons_of_mem a (ih seen h)
    · rw [if_neg ha] at h
      rcases List.mem_cons.mp h with h1 | h1
      · subst h1
        exact List.mem_cons_self _ _
      · exact List.mem_cons_of_mem a (ih (a :: seen) h1)

/-- `pyUnique` of a nonempty list is nonempty. -/
theorem pyUnique_ne_nil {α : Type} [DecidableEq α] (l : List α) (h : l ≠ []) :
    pyUnique l ≠ [] := by
  cases l with
  | nil => exact absurd rfl h
  | cons a t =>
    rw [pyUnique_cons]
    exact List.cons_ne_nil _ _

/-- Members of an insertion come from the inserted element or the list. -/
theorem mem_insertDesc (x y : String × Nat) (l : List (String × Nat))
    (h : y ∈ insertDesc x l) : y = x ∨ y ∈ l := by
  induction l with
  | nil => simpa [insertDesc] using h
  | cons a t ih =>
    simp only [insertDesc] at h
    by_cases hc : a.2 < x.2
    · rw [if_pos hc] at h
      rcases List.mem_cons.mp h with h1 | h1
      · exact Or.inl h1
      · exact Or.inr h1
    · rw [if_neg hc] at h
      rcases List.mem_cons.mp h with h1 | h1
      · subst h1
        exact Or.inr (List.mem_cons_self _ _)
      · rcases ih h1 with h2 | h2
        · exact Or.inl h2
        · exact Or.inr (List.mem_cons_of_mem _ h2)

/-- Members of the sorted list come from the input. -/
theorem mem_sortDesc (y : String × Nat) (l : List (String × Nat))
    (h : y ∈ sortDesc l) : y ∈ l := by
  induction l with
  | nil => simp [sortDesc] at h
  | cons a t ih =>
    simp only [sortDesc] at h
    rcases mem_insertDesc a y (sortDesc t) h with h1 | h1
    · subst h1
      exact List.mem_cons_self _ _
    · exact List.mem_cons_of_mem _ (ih h1)

/-- Inserting never yields the empty list. -/
theorem insertDesc_ne_nil (x : String × Nat) (l : List (String × Nat)) :
    insertDesc x l ≠ [] := by
  cases l with
  | nil => simp [insertDesc]
  | cons a t =>
    simp only [insertDesc]
    by_cases hc : a.2 < x.2
    · rw [if_pos hc]
      exact List.cons_ne_nil _ _
    · rw [if_neg hc]
      exact List.cons_ne_nil _ _

/-- `process.extract` on a nonempty choice list returns matches. -/
theorem pyExtract_ne_nil (scorer : String → Nat) (choices : List String) (h : choices ≠ []) :
    pyExtract scorer choices ≠ [] := by
  cases choices with
  | nil => exact absurd rfl h
  | cons c cs =>
    rw [show pyExtract scorer (c :: cs) =
        (insertDesc (c, scorer c) (sortDesc (cs.map (fun x => (x, scorer x))))).take 5 from rfl]
    cases hd : insertDesc (c, scorer c) (sortDesc (cs.map (fun x => (x, scorer x)))) with
    | nil => exact absurd hd (insertDesc_ne_nil _ _)
    | cons b u => simp

/-- The best-ranked match returned by `process.extract` is one of the
choices it was given. -/
theorem pyExtract_head_mem (scorer : String → Nat) (choices : List String)
    (best : String) (s : Nat) (rest : List (String × Nat))
    (h : pyExtract scorer choices = (best, s) :: rest) : best ∈ choices := by
  have hmem : (best, s) ∈ pyExtract scorer choices := by
    rw [h]
    exact List.mem_cons_self _ _
  have h2 : (best, s) ∈ sortDesc (choices.map (fun c => (c, scorer c))) :=
    List.mem_of_mem_take hmem
  have h3 := mem_sortDesc _ _ h2
  rcases List.mem_map.mp h3 with ⟨c, hc, hEq⟩
  have hcb : c = best := congrArg Prod.fst hEq
  exact hcb ▸ hc

/-- C10: whenever the loaded companies table has at least one non-null
title, `get_ticker`'s fuzzy-match list is nonempty, the best match is one
of the table's own titles, the `Ticker not found` branch is unreachable
(the filter is nonempty, so the local `ticker` is bound), and the function
returns the ticker of the first row whose title equals the best match. -/
theorem C10_get_ticker_total (scorer : String → Nat) (table : List SecRow)
    (h : ∃ r ∈ table, r.title ≠ none) :
    ∃ best s rest row rows,
      pyExtract scorer (pyUnique (table.filterMap (fun r => r.title))) = (best, s) :: rest ∧
      best ∈ table.filterMap (fun r => r.title) ∧
      table.filter (fun r => r.title == some best) = row :: rows ∧
      get_ticker scorer table = Except.ok (some row.ticker) := by
  obtain ⟨r0, hr0, ht0⟩ := h
  obtain ⟨t0, ht1⟩ := Option.ne_none_iff_exists'.mp ht0
  have htitles : t0 ∈ table.filterMap (fun r => r.title) :=
    List.mem_filterMap.mpr ⟨r0, hr0, ht1⟩
  have hne : table.filterMap (fun r => r.title) ≠ [] := List.ne_nil_of_mem htitles
  have hune : pyUnique (table.filterMap (fun r => r.title)) ≠ [] := pyUnique_ne_nil _ hne
  have hex : pyExtract scorer (pyUnique (table.filterMap (fun r => r.title))) ≠ [] :=
    pyExtract_ne_nil _ _ hune
  cases hext : pyExtract scorer (pyUnique (table.filterMap (fun r => r.title))) with
  | nil => exact absurd hext hex
  | cons p rest =>
    obtain ⟨best, s⟩ := p
    have hbest : best ∈ pyUnique (table.filterMap (fun r => r.title)) :=
      pyExtract_head_mem _ _ _ _ _ hext
    have hbest2 : best ∈ table.filterMap (fun r => r.title) :=
      pyUniqueAux_subset _ _ _ hbest
    obtain ⟨row0, hrow0, hrowt⟩ := List.mem_filterMap.mp hbest2
    have hfmem : row0 ∈ table.filter (fun r => r.title == some best) := by
      refine List.mem_filter.mpr ⟨hrow0, ?_⟩
      rw [hrowt]
      exact beq_self_eq_true _
    have hfne : table.filter (fun r => r.title == some best) ≠ [] :=
      List.ne_nil_of_mem hfmem
    cases hfil : table.filter (fun r => r.title == some best) with
    | nil => exact absurd hfil hfne
    | cons row rows =>
      refine ⟨best, s, rest, row, rows, rfl, hbest2, hfil, ?_⟩
      simp only [get_ticker, hext, hfil]

/-- Witness for C10_get_ticker_total on a one-row table. -/
theorem C10_get_ticker_total_w :
    (get_ticker (fun _ => 90) [⟨some "NVIDIA Corp", "NVDA"⟩]).toOption ≠ none := by
  obtain ⟨best, s, rest, row, rows, -, -, -, h4⟩ :=
    C10_get_ticker_total (fun _ => 90) [⟨some "NVIDIA Corp", "NVDA"⟩]
      ⟨⟨some "NVIDIA Corp", "NVDA"⟩, by decide, by decide⟩
  rw [h4]
  simp [Except.toOption]
